import Mathlib

/-
Verification of the mini-batch gradient-descent training-loop pattern of the
repository. The notebook builds a network, a cross-entropy criterion and an
SGD optimizer, and runs the loop

    steps = 0
    for e in range(epochs):
        running_loss = 0
        for images, labels in iter(trainloader):
            steps += 1
            images.resize_(images.size()[0], 784)
            optimizer.zero_grad()
            output = model.forward(images)
            loss = criterion(output, labels)
            loss.backward()
            optimizer.step()
            running_loss += loss.item()
            if steps % print_every == 0:
                print(..., running_loss / print_every)
                running_loss = 0

All numerics are embedded over the rationals. Parameters, gradients and
batches are flat lists; the loss and gradient computations that the loop
delegates to the external library are passed in as functions.
-/

namespace TrainingLoop

/-- Modelled from the spec: the Update Rule of the external `optim.SGD`
optimizer the notebook instantiates, `parameter -= learning_rate * gradient`,
applied elementwise to the flattened list of parameters. -/
def sgdStep (lr : ℚ) (params grads : List ℚ) : List ℚ :=
  List.zipWith (fun p g => p - lr * g) params grads

/-- Modelled from the spec: `loss.backward()` of the external autograd engine
accumulates (sums) the freshly computed gradient into the existing gradient
buffers rather than overwriting them. -/
def backwardInto (existing fresh : List ℚ) : List ℚ :=
  List.zipWith (fun e f => e + f) existing fresh

/-- The cleared gradient buffers produced by `optimizer.zero_grad()`. -/
def zeroGrads (n : ℕ) : List ℚ := List.replicate n 0

/-- Elementwise view of `zipWith` through optional indexing. -/
theorem zipWith_get_opt (f : ℚ → ℚ → ℚ) :
    ∀ (a b : List ℚ) (i : ℕ),
      (List.zipWith f a b).get? i =
        (a.get? i).bind (fun x => (b.get? i).map (fun y => f x y))
  | [], _, _ => by simp
  | _ :: _, [], _ => by simp
  | x :: a, y :: b, 0 => by simp
  | x :: a, y :: b, (i + 1) => by
    simpa using zipWith_get_opt f a b i

/-- Clearing then one backward pass stores exactly the fresh gradient. -/
theorem backwardInto_zero (g : List ℚ) :
    backwardInto (zeroGrads g.length) g = g := by
  induction g with
  | nil => rfl
  | cons x xs ih =>
      simp [backwardInto, zeroGrads, List.replicate] at ih ⊢
      simpa [backwardInto, zeroGrads] using ih

/-- The mutable state of the training cell: the Parameter Set, the gradient
buffers, the step counter and running-loss accumulator, plus the log of the
values printed by the periodic report. -/
structure TrainState where
  params : List ℚ
  grads : List ℚ
  steps : ℕ
  runningLoss : ℚ
  reports : List ℚ
deriving DecidableEq

/-- The state before the loop starts: `steps = 0`, nothing accumulated or
reported, gradient buffers cleared. -/
def initState (params : List ℚ) : TrainState :=
  { params := params, grads := zeroGrads params.length, steps := 0,
    runningLoss := 0, reports := [] }

/-- One iteration of the inner loop body, in source order: `steps += 1`,
`optimizer.zero_grad()`, forward pass and loss, `loss.backward()` (accumulating
into the cleared buffers), `optimizer.step()`, `running_loss += loss`, and the
periodic report every `printEvery` steps, which prints
`running_loss / print_every` and zeroes the accumulator. The loss and gradient
computations delegated to the external library enter as `lossOf` and
`gradOf`. -/
def trainStep {β : Type} (lr : ℚ) (lossOf : List ℚ → β → ℚ)
    (gradOf : List ℚ → β → List ℚ) (printEvery : ℕ)
    (s : TrainState) (b : β) : TrainState :=
  let steps := s.steps + 1
  let cleared := zeroGrads s.params.length
  let lossVal := lossOf s.params b
  let g := backwardInto cleared (gradOf s.params b)
  let newParams := sgdStep lr s.params g
  let rl := s.runningLoss + lossVal
  if steps % printEvery = 0 then
    { params := newParams, grads := g, steps := steps, runningLoss := 0,
      reports := s.reports ++ [rl / (printEvery : ℚ)] }
  else
    { params := newParams, grads := g, steps := steps, runningLoss := rl,
      reports := s.reports }

/-- One epoch: `running_loss = 0`, then every batch through `trainStep`. -/
def runEpoch {β : Type} (lr : ℚ) (lossOf : List ℚ → β → ℚ)
    (gradOf : List ℚ → β → List ℚ) (printEvery : ℕ)
    (s : TrainState) (data : List β) : TrainState :=
  data.foldl (trainStep lr lossOf gradOf printEvery)
    { s with runningLoss := 0 }

/-- The whole driver: `for e in range(epochs)`, each epoch over `data`. -/
def runDriver {β : Type} (lr : ℚ) (lossOf : List ℚ → β → ℚ)
    (gradOf : List ℚ → β → List ℚ) (printEvery : ℕ)
    (epochs : ℕ) (data : List β) (s : TrainState) : TrainState :=
  (List.range epochs).foldl
    (fun st _ => runEpoch lr lossOf gradOf printEvery st data) s

/-- The five operations a training step performs, as named by the spec. -/
inductive Phase where
  | clearGradients
  | forward
  | computeLoss
  | backward
  | update
deriving DecidableEq

/-- The order in which the five statements of the loop body execute:
`optimizer.zero_grad()`, `model.forward(images)`, `criterion(output, labels)`,
`loss.backward()`, `optimizer.step()`. -/
def stepPhaseList : List Phase :=
  [Phase.clearGradients, Phase.forward, Phase.computeLoss,
   Phase.backward, Phase.update]

/-- A training step paired with the trace of the operations its body runs,
emitted at each call site in source order. -/
def trainStepT {β : Type} (lr : ℚ) (lossOf : List ℚ → β → ℚ)
    (gradOf : List ℚ → β → List ℚ) (printEvery : ℕ)
    (s : TrainState) (b : β) : TrainState × List Phase :=
  (trainStep lr lossOf gradOf printEvery s b, stepPhaseList)

/-- Traced epoch: state threaded as in `runEpoch`, per-step traces appended
one after the other (steps never overlap; a step begins only after the
previous step, its update included, has finished). -/
def runEpochT {β : Type} (lr : ℚ) (lossOf : List ℚ → β → ℚ)
    (gradOf : List ℚ → β → List ℚ) (printEvery : ℕ)
    (s : TrainState × List Phase) (data : List β) : TrainState × List Phase :=
  data.foldl
    (fun p b =>
      let r := trainStepT lr lossOf gradOf printEvery p.1 b
      (r.1, p.2 ++ r.2))
    ({ s.1 with runningLoss := 0 }, s.2)

/-- Traced driver. -/
def runDriverT {β : Type} (lr : ℚ) (lossOf : List ℚ → β → ℚ)
    (gradOf : List ℚ → β → List ℚ) (printEvery : ℕ)
    (epochs : ℕ) (data : List β) (s : TrainState × List Phase) :
    TrainState × List Phase :=
  (List.range epochs).foldl
    (fun st _ => runEpochT lr lossOf gradOf printEvery st data) s

/-- The linear model of the end-to-end scenario, y = w * x + b. -/
def linearForward (w b x : ℚ) : ℚ := w * x + b

/-- The mean squared loss as written in the notebook,
l = (1 / (2 n)) * sum over i of (y i - yhat i) ^ 2. -/
def mseLoss (ys yhats : List ℚ) : ℚ :=
  (List.zipWith (fun y yh => (y - yh) ^ 2) ys yhats).sum
    / (2 * (ys.length : ℚ))

/-- The notebook loss specialised to one training example. -/
def singleLoss (w b x y : ℚ) : ℚ := mseLoss [y] [linearForward w b x]

/-- Modelled from the spec: the Gradient Provider (the external autograd
engine) returns the partial derivative of the loss with respect to w; for the
single-example notebook loss this closed form is (w * x + b - y) * x, pinned
down below as the exact derivative by `singleLoss_expand_w`. -/
def gradW (w b x y : ℚ) : ℚ := (linearForward w b x - y) * x

/-- Modelled from the spec: the partial derivative of the single-example
notebook loss with respect to b, pinned down by `singleLoss_expand_b`. -/
def gradB (w b x y : ℚ) : ℚ := linearForward w b x - y

/-- Exact quadratic expansion in w: the linear coefficient is `gradW`, so
`gradW` is the derivative of the single-example loss in w. -/
theorem singleLoss_expand_w (w b x y h : ℚ) :
    singleLoss (w + h) b x y =
      singleLoss w b x y + gradW w b x y * h + (x ^ 2 / 2) * h ^ 2 := by
  simp only [singleLoss, mseLoss, linearForward, gradW, List.zipWith,
    List.sum_cons, List.sum_nil, List.length_cons, List.length_nil]
  push_cast
  ring

/-- Exact quadratic expansion in b: the linear coefficient is `gradB`. -/
theorem singleLoss_expand_b (w b x y h : ℚ) :
    singleLoss w (b + h) x y =
      singleLoss w b x y + gradB w b x y * h + (1 / 2) * h ^ 2 := by
  simp only [singleLoss, mseLoss, linearForward, gradB, List.zipWith,
    List.sum_cons, List.sum_nil, List.length_cons, List.length_nil]
  push_cast
  ring

/-- The scenario loss, as a function of the flat parameter list [w, b] and a
batch (x, y). -/
def scenarioLossOf (p : List ℚ) (xy : ℚ × ℚ) : ℚ :=
  match p with
  | [w, b] => singleLoss w b xy.1 xy.2
  | _ => 0

/-- The scenario gradient, parallel to the parameter list [w, b]. -/
def scenarioGradOf (p : List ℚ) (xy : ℚ × ℚ) : List ℚ :=
  match p with
  | [w, b] => [gradW w b xy.1 xy.2, gradB w b xy.1 xy.2]
  | _ => []

/-- The scenario run: w = 2, b = 0, lr = 1/10, one batch (x, y) = (1, 0) per
step, for k steps of the driver. -/
def scenarioState (k : ℕ) : TrainState :=
  runDriver (1 / 10) scenarioLossOf scenarioGradOf 40 k [((1 : ℚ), (0 : ℚ))]
    (initState [2, 0])

/-- The loss the scenario computes at step k (on the parameters produced by
the first k steps, before the step k update). -/
def lossAt (k : ℕ) : ℚ := scenarioLossOf (scenarioState k).params (1, 0)

/-- A model together with its declared input dimensionality (the notebook
declares `input_size = 784` and resizes every batch to it). -/
structure CheckedModel where
  inSize : ℕ
  params : List ℚ
deriving DecidableEq

/-- The error taxonomy relevant to a training step. -/
inductive TrainError where
  | shapeMismatch (expected got : ℕ)
deriving DecidableEq

/-- Modelled from the spec: the shape check the external library performs on
the forward pass. A training step whose input batch has the wrong
dimensionality fails before any parameter update; the error carries the
untouched model, and no retry happens. -/
def stepChecked {β : Type} (inputLen : β → ℕ) (lr : ℚ)
    (gradOf : List ℚ → β → List ℚ) (m : CheckedModel) (b : β) :
    Except (TrainError × CheckedModel) CheckedModel :=
  if inputLen b = m.inSize then
    Except.ok { m with params := sgdStep lr m.params (gradOf m.params b) }
  else
    Except.error (TrainError.shapeMismatch m.inSize (inputLen b), m)

/-- Modelled from the spec: the run over a batch list aborts at the first
failing step, propagating the error rather than swallowing or retrying it. -/
def runChecked {β : Type} (inputLen : β → ℕ) (lr : ℚ)
    (gradOf : List ℚ → β → List ℚ) :
    CheckedModel → List β → Except (TrainError × CheckedModel) CheckedModel
  | m, [] => Except.ok m
  | m, b :: bs =>
      match stepChecked inputLen lr gradOf m b with
      | Except.ok m2 => runChecked inputLen lr gradOf m2 bs
      | Except.error e => Except.error e

/-- The state the autograd engine sees: parameters, stored gradients, and the
intermediate tensors saved during a tracked forward pass for the coming
backward pass. -/
structure AutogradState where
  params : List ℚ
  grads : List ℚ
  saved : List (List ℚ)
deriving DecidableEq

/-- Modelled from the spec: Forward Evaluation with an explicit
gradient-tracking flag (the `torch.no_grad()` context of the notebook runs
with tracking off). With tracking on, the input is saved for reverse-mode
differentiation; with tracking off, no bookkeeping happens. The output is the
same function of parameters and input either way. -/
def forwardPass (track : Bool) (s : AutogradState) (x : List ℚ) :
    List ℚ × AutogradState :=
  let out := [(List.zipWith (fun p xi => p * xi) s.params x).sum]
  if track then (out, { s with saved := s.saved ++ [x] })
  else (out, s)

/-- C1: one invocation of the SGD Update Rule sends every parameter p with
gradient g to exactly p - lr * g, and the result at any index depends only on
the parameter and gradient at that index (no cross-parameter coupling). -/
theorem sgd_step_pointwise (lr : ℚ) (p g : List ℚ) (i : ℕ)
    (hp : i < p.length) (hg : i < g.length) :
    (sgdStep lr p g).get? i = some (p.get ⟨i, hp⟩ - lr * g.get ⟨i, hg⟩) ∧
    (∀ p2 g2 : List ℚ, p2.get? i = p.get? i → g2.get? i = g.get? i →
      (sgdStep lr p2 g2).get? i = (sgdStep lr p g).get? i) := by
  constructor
  · rw [sgdStep, zipWith_get_opt, List.get?_eq_get hp, List.get?_eq_get hg]
    rfl
  · intro p2 g2 h1 h2
    rw [sgdStep, zipWith_get_opt, h1, h2, ← zipWith_get_opt]
    rfl

/-- Witness for C1 at lr = 1/2, p = [4], g = [2]: the updated value is 3, and
extending both lists leaves index 0 unchanged. -/
theorem sgd_step_pointwise_witness :
    (sgdStep (1 / 2 : ℚ) [4] [2]).get? 0 = some 3 ∧
    (sgdStep (1 / 2 : ℚ) [4, 9] [2, 7]).get? 0 =
      (sgdStep (1 / 2 : ℚ) [4] [2]).get? 0 := by
  refine ⟨?_, ?_⟩
  · have h := (sgd_step_pointwise (1 / 2) [4] [2] 0 (by decide) (by decide)).1
    norm_num at h
    exact h
  · exact (sgd_step_pointwise (1 / 2) [4] [2] 0 (by decide) (by decide)).2
      [4, 9] [2, 7] (by decide) (by decide)

/-- C3: with a preserved forward state yielding gradient g, a second backward
pass without clearing sums into the stored gradients, so every entry after
two passes is exactly double the entry after one pass. -/
theorem backward_twice_doubles (g : List ℚ) (i : ℕ) :
    (backwardInto (backwardInto (zeroGrads g.length) g) g).get? i =
      ((backwardInto (zeroGrads g.length) g).get? i).map (fun v => 2 * v) := by
  rw [backwardInto_zero, backwardInto, zipWith_get_opt]
  cases hg : g.get? i <;> simp [two_mul]

/-- C2 counterexample: under the mean squared loss written in the notebook,
l = (1/(2n)) * sum of (y - yhat)^2, the scenario w = 2, b = 0, x = 1, y = 0
with lr = 1/10 does give loss 2, but its gradients are 2 (not 4) and one
driver step updates the parameters to [9/5, -1/5] (not [8/5, -2/5]), so the
claimed conjunction of values is false. -/
theorem scenario_one_step_claimed_values_false :
    ¬ (singleLoss 2 0 1 0 = 2 ∧ gradW 2 0 1 0 = 4 ∧ gradB 2 0 1 0 = 4 ∧
       (scenarioState 1).params = [8 / 5, -2 / 5]) := by
  simp only [scenarioState, runDriver, runEpoch, trainStep, initState,
    scenarioLossOf, scenarioGradOf, singleLoss, mseLoss, linearForward,
    gradW, gradB, sgdStep, backwardInto, zeroGrads, List.range_succ,
    List.range_zero, List.foldl, List.zipWith, List.replicate]
  norm_num

/-- C2 amended: under the notebook loss the scenario yields loss 2, gradient 2
with respect to w, gradient 2 with respect to b, updated w = 9/5 and updated
b = -1/5 after one driver step, with loss 2 accumulated by the loop. -/
theorem scenario_one_step_values :
    singleLoss 2 0 1 0 = 2 ∧ gradW 2 0 1 0 = 2 ∧ gradB 2 0 1 0 = 2 ∧
    (scenarioState 1).params = [9 / 5, -1 / 5] ∧
    (scenarioState 1).runningLoss = 2 := by
  simp only [scenarioState, runDriver, runEpoch, trainStep, initState,
    scenarioLossOf, scenarioGradOf, singleLoss, mseLoss, linearForward,
    gradW, gradB, sgdStep, backwardInto, zeroGrads, List.range_succ,
    List.range_zero, List.foldl, List.zipWith, List.replicate]
  norm_num

/-- C4 counterexample: with printEvery = 2, two epochs of one batch whose loss
is 5 at every step, the single report prints 5/2, yet the average of the two
per-step losses since the last report (the start of the run) is 5: the
accumulator was reset at the epoch boundary, so the reported value is not the
running average since the last report. The second conjunct shows each step
contributes loss 5 to the accumulator. -/
theorem report_not_average_since_last_report :
    (runDriver 1 (fun _ b => b) (fun p _ => List.map (fun _ => 0) p) 2 2
        [(5 : ℚ)] (initState [0])).reports = [5 / 2] ∧
    (runDriver 1 (fun _ b => b) (fun p _ => List.map (fun _ => 0) p) 2 1
        [(5 : ℚ)] (initState [0])).runningLoss = 5 ∧
    (5 / 2 : ℚ) ≠ (5 + 5) / 2 := by
  refine ⟨?_, ?_, by norm_num⟩ <;>
    · simp only [runDriver, runEpoch, trainStep, initState, zeroGrads,
        sgdStep, backwardInto, List.range_succ, List.range_zero,
        List.foldl_append, List.foldl, List.map, List.zipWith,
        List.replicate, List.length_cons, List.length_nil]
      norm_num

/-- C4 amended: at a report step the driver appends the accumulated running
loss divided by printEvery and zeroes the accumulator; at every other step it
only accumulates the loss; and the parameters, gradients and step counter of
a step never depend on the reporting period. -/
theorem report_step_behavior {β : Type} (lr : ℚ) (lossOf : List ℚ → β → ℚ)
    (gradOf : List ℚ → β → List ℚ) (pe : ℕ) (s : TrainState) (b : β)
    (hpe : 0 < pe) :
    ((s.steps + 1) % pe = 0 →
        (trainStep lr lossOf gradOf pe s b).reports =
          s.reports ++ [(s.runningLoss + lossOf s.params b) / (pe : ℚ)] ∧
        (trainStep lr lossOf gradOf pe s b).runningLoss = 0) ∧
    ((s.steps + 1) % pe ≠ 0 →
        (trainStep lr lossOf gradOf pe s b).reports = s.reports ∧
        (trainStep lr lossOf gradOf pe s b).runningLoss =
          s.runningLoss + lossOf s.params b) ∧
    (∀ pe2 : ℕ,
        (trainStep lr lossOf gradOf pe2 s b).params =
          (trainStep lr lossOf gradOf pe s b).params ∧
        (trainStep lr lossOf gradOf pe2 s b).grads =
          (trainStep lr lossOf gradOf pe s b).grads ∧
        (trainStep lr lossOf gradOf pe2 s b).steps =
          (trainStep lr lossOf gradOf pe s b).steps) := by
  refine ⟨fun h => ?_, fun h => ?_, fun pe2 => ?_⟩
  · simp [trainStep, h]
  · simp [trainStep, h]
  · simp only [trainStep]
    split <;> split <;> simp

/-- Witness for C4 amended: with printEvery = 1 the first step reports its own
loss 7 and resets the accumulator. -/
theorem report_step_behavior_witness :
    (trainStep 1 (fun _ b => b) (fun p _ => List.map (fun _ => 0) p) 1
        (initState [0]) (7 : ℚ)).reports = [7] ∧
    (trainStep 1 (fun _ b => b) (fun p _ => List.map (fun _ => 0) p) 1
        (initState [0]) (7 : ℚ)).runningLoss = 0 := by
  have h := (report_step_behavior 1 (fun _ b => b)
      (fun p _ => List.map (fun _ => 0) p) 1 (initState [0]) (7 : ℚ)
      (by decide)).1 (by decide)
  refine ⟨?_, h.2⟩
  rw [h.1]
  norm_num [initState]

/-- The traced inner fold agrees with the untraced one and appends one
`stepPhaseList` per batch. -/
theorem foldT_trace {β : Type} (lr : ℚ) (lossOf : List ℚ → β → ℚ)
    (gradOf : List ℚ → β → List ℚ) (pe : ℕ) :
    ∀ (data : List β) (st : TrainState) (tr : List Phase),
      data.foldl
          (fun p b =>
            let r := trainStepT lr lossOf gradOf pe p.1 b
            (r.1, p.2 ++ r.2)) (st, tr) =
        (data.foldl (trainStep lr lossOf gradOf pe) st,
         tr ++ List.flatten (List.replicate data.length stepPhaseList))
  | [], st, tr => by simp
  | b :: bs, st, tr => by
      simp only [List.foldl, List.length_cons, List.replicate_succ,
        List.flatten]
      rw [foldT_trace lr lossOf gradOf pe bs]
      simp [trainStepT, List.append_assoc]

/-- Traced epoch versus untraced epoch. -/
theorem runEpochT_trace {β : Type} (lr : ℚ) (lossOf : List ℚ → β → ℚ)
    (gradOf : List ℚ → β → List ℚ) (pe : ℕ) (data : List β)
    (st : TrainState) (tr : List Phase) :
    runEpochT lr lossOf gradOf pe (st, tr) data =
      (runEpoch lr lossOf gradOf pe st data,
       tr ++ List.flatten (List.replicate data.length stepPhaseList)) := by
  simp only [runEpochT, runEpoch]
  exact foldT_trace lr lossOf gradOf pe data _ tr

/-- Traced driver versus untraced driver. -/
theorem runDriverT_trace {β : Type} (lr : ℚ) (lossOf : List ℚ → β → ℚ)
    (gradOf : List ℚ → β → List ℚ) (pe : ℕ) (data : List β) :
    ∀ (epochs : ℕ) (st : TrainState) (tr : List Phase),
      runDriverT lr lossOf gradOf pe epochs data (st, tr) =
        (runDriver lr lossOf gradOf pe epochs data st,
         tr ++ List.flatten
           (List.replicate (epochs * data.length) stepPhaseList))
  | 0, st, tr => by simp [runDriverT, runDriver]
  | (n + 1), st, tr => by
      simp only [runDriverT, runDriver, List.range_succ, List.foldl_append,
        List.foldl]
      have hn := runDriverT_trace lr lossOf gradOf pe data n st tr
      simp only [runDriverT, runDriver] at hn
      rw [hn, runEpochT_trace]
      rw [Nat.succ_mul, List.replicate_add, List.flatten_append,
        List.append_assoc]

/-- Per-step `stepPhaseList` holds exactly one update. -/
theorem trace_update_count :
    ∀ n : ℕ,
      List.count Phase.update
          (List.flatten (List.replicate n stepPhaseList)) = n
  | 0 => by simp
  | (n + 1) => by
      have h1 : List.count Phase.update stepPhaseList = 1 := by decide
      simp only [List.replicate_succ, List.flatten_cons, List.count_append,
        h1, trace_update_count n]
      omega

/-- C5: a whole run is the concatenation, one step after another, of the
fixed operation sequence clear gradients, forward, compute loss, backward,
update; the traced run computes the same state as the untraced one, and the
update operation occurs exactly once per step (epochs * batches times in
total, always as the final operation of its step). -/
theorem step_phase_order {β : Type} (lr : ℚ) (lossOf : List ℚ → β → ℚ)
    (gradOf : List ℚ → β → List ℚ) (pe epochs : ℕ) (data : List β)
    (s : TrainState) :
    (runDriverT lr lossOf gradOf pe epochs data (s, [])).2 =
      List.flatten (List.replicate (epochs * data.length) stepPhaseList) ∧
    (runDriverT lr lossOf gradOf pe epochs data (s, [])).1 =
      runDriver lr lossOf gradOf pe epochs data s ∧
    List.count Phase.update
        (runDriverT lr lossOf gradOf pe epochs data (s, [])).2 =
      epochs * data.length := by
  have h := runDriverT_trace lr lossOf gradOf pe data epochs s []
  rw [h]
  exact ⟨by simp, rfl, by simpa using trace_update_count (epochs * data.length)⟩

/-- C6: running the driver for zero epochs is the identity on the training
state: no step runs, every parameter is unchanged. -/
theorem zero_epochs_identity {β : Type} (lr : ℚ) (lossOf : List ℚ → β → ℚ)
    (gradOf : List ℚ → β → List ℚ) (pe : ℕ) (data : List β)
    (s : TrainState) :
    runDriver lr lossOf gradOf pe 0 data s = s ∧
    (runDriver lr lossOf gradOf pe 0 data s).params = s.params ∧
    (runDriver lr lossOf gradOf pe 0 data s).steps = s.steps :=
  ⟨rfl, rfl, rfl⟩

/-- A single step always advances the step counter by exactly one. -/
theorem trainStep_steps {β : Type} (lr : ℚ) (lossOf : List ℚ → β → ℚ)
    (gradOf : List ℚ → β → List ℚ) (pe : ℕ) (s : TrainState) (b : β) :
    (trainStep lr lossOf gradOf pe s b).steps = s.steps + 1 := by
  simp only [trainStep]
  split <;> rfl

/-- The inner fold advances the step counter by the number of batches. -/
theorem fold_steps {β : Type} (lr : ℚ) (lossOf : List ℚ → β → ℚ)
    (gradOf : List ℚ → β → List ℚ) (pe : ℕ) :
    ∀ (data : List β) (st : TrainState),
      (data.foldl (trainStep lr lossOf gradOf pe) st).steps =
        st.steps + data.length
  | [], st => by simp
  | b :: bs, st => by
      simp only [List.foldl, List.length_cons]
      rw [fold_steps lr lossOf gradOf pe bs, trainStep_steps]
      omega

/-- An epoch advances the step counter by the number of batches. -/
theorem runEpoch_steps {β : Type} (lr : ℚ) (lossOf : List ℚ → β → ℚ)
    (gradOf : List ℚ → β → List ℚ) (pe : ℕ) (data : List β)
    (s : TrainState) :
    (runEpoch lr lossOf gradOf pe s data).steps = s.steps + data.length := by
  simp only [runEpoch]
  exact fold_steps lr lossOf gradOf pe data _

/-- The driver advances the step counter by epochs * batches. -/
theorem runDriver_steps {β : Type} (lr : ℚ) (lossOf : List ℚ → β → ℚ)
    (gradOf : List ℚ → β → List ℚ) (pe : ℕ) (data : List β) :
    ∀ (epochs : ℕ) (s : TrainState),
      (runDriver lr lossOf gradOf pe epochs data s).steps =
        s.steps + epochs * data.length
  | 0, s => by simp [runDriver]
  | (n + 1), s => by
      simp only [runDriver, List.range_succ, List.foldl_append, List.foldl]
      have hn := runDriver_steps lr lossOf gradOf pe data n s
      simp only [runDriver] at hn
      rw [runEpoch_steps, hn, Nat.succ_mul]
      omega

/-- C7: the running-loss accumulator is reset at the start of every epoch (the
result of an epoch ignores the incoming accumulator value), while the step
counter starts at zero in the initial state, advances by exactly one per step,
totals epochs * batches over a run, and is monotone in the number of epochs
run (it is never reset). -/
theorem counters_invariant {β : Type} (lr : ℚ) (lossOf : List ℚ → β → ℚ)
    (gradOf : List ℚ → β → List ℚ) (pe : ℕ) (data : List β) :
    (∀ p : List ℚ, (initState p).steps = 0) ∧
    (∀ (s : TrainState) (b : β),
      (trainStep lr lossOf gradOf pe s b).steps = s.steps + 1) ∧
    (∀ (epochs : ℕ) (s : TrainState),
      (runDriver lr lossOf gradOf pe epochs data s).steps =
        s.steps + epochs * data.length) ∧
    (∀ s1 s2 : TrainState, s1.params = s2.params → s1.grads = s2.grads →
      s1.steps = s2.steps → s1.reports = s2.reports →
      runEpoch lr lossOf gradOf pe s1 data =
        runEpoch lr lossOf gradOf pe s2 data) ∧
    (∀ (e1 e2 : ℕ) (s : TrainState), e1 ≤ e2 →
      (runDriver lr lossOf gradOf pe e1 data s).steps ≤
        (runDriver lr lossOf gradOf pe e2 data s).steps) := by
  refine ⟨fun p => rfl, trainStep_steps lr lossOf gradOf pe,
    fun epochs s => runDriver_steps lr lossOf gradOf pe data epochs s,
    ?_, ?_⟩
  · intro s1 s2 h1 h2 h3 h4
    cases s1
    cases s2
    simp only at h1 h2 h3 h4
    simp [runEpoch, h1, h2, h3, h4]
  · intro e1 e2 s h
    rw [runDriver_steps, runDriver_steps]
    exact Nat.add_le_add_left (Nat.mul_le_mul_right data.length h) s.steps

/-- Witness for C7: three epochs of one batch advance the counter from 0 to
3, and one epoch reaches at most the counter of three epochs. -/
theorem counters_invariant_witness :
    (runDriver 1 (fun _ b => b) (fun p _ => List.map (fun _ => 0) p) 2 3
        [(5 : ℚ)] (initState [0])).steps = 3 ∧
    (runDriver 1 (fun _ b => b) (fun p _ => List.map (fun _ => 0) p) 2 1
        [(5 : ℚ)] (initState [0])).steps ≤
      (runDriver 1 (fun _ b => b) (fun p _ => List.map (fun _ => 0) p) 2 3
        [(5 : ℚ)] (initState [0])).steps := by
  have h := counters_invariant 1 (fun _ b => b)
    (fun p _ => List.map (fun _ => 0) p) 2 [(5 : ℚ)]
  refine ⟨?_, h.2.2.2.2 1 3 (initState [0]) (by decide)⟩
  rw [h.2.2.1 3 (initState [0])]
  rfl

/-- C8: a batch whose input dimensionality disagrees with the declared input
size makes the step fail before any update: the step returns the
shape-mismatch error carrying the untouched model, and a run hitting such a
batch aborts at it with the same error and the same untouched model — the
error is propagated, never swallowed, and never retried. -/
theorem shape_mismatch_aborts {β : Type} (inputLen : β → ℕ) (lr : ℚ)
    (gradOf : List ℚ → β → List ℚ) (m : CheckedModel) (b : β) (bs : List β)
    (h : inputLen b ≠ m.inSize) :
    stepChecked inputLen lr gradOf m b =
      Except.error (TrainError.shapeMismatch m.inSize (inputLen b), m) ∧
    runChecked inputLen lr gradOf m (b :: bs) =
      Except.error (TrainError.shapeMismatch m.inSize (inputLen b), m) := by
  have h1 : stepChecked inputLen lr gradOf m b =
      Except.error (TrainError.shapeMismatch m.inSize (inputLen b), m) := by
    simp [stepChecked, h]
  exact ⟨h1, by simp [runChecked, h1]⟩

/-- Witness for C8: a model declaring input size 3 fed a batch of length 2
aborts with the shape-mismatch error and its single parameter untouched. -/
theorem shape_mismatch_aborts_witness :
    runChecked List.length 1 (fun p _ => p)
        { inSize := 3, params := [(1 : ℚ)] } [[(1 : ℚ), 2]] =
      Except.error (TrainError.shapeMismatch 3 2,
        { inSize := 3, params := [(1 : ℚ)] }) :=
  (shape_mismatch_aborts List.length 1 (fun p _ => p)
    { inSize := 3, params := [(1 : ℚ)] } [(1 : ℚ), 2] [] (by decide)).2

/-- C10: a forward pass with gradient tracking off (the no-grad inference the
notebook runs after training) leaves the whole autograd state — parameters,
stored gradients and saved tensors — exactly as it was, and produces the same
output the tracked forward pass would. -/
theorem no_grad_frame (s : AutogradState) (x : List ℚ) :
    (forwardPass false s x).2 = s ∧
    (forwardPass false s x).2.params = s.params ∧
    (forwardPass false s x).2.grads = s.grads ∧
    (forwardPass false s x).1 = (forwardPass true s x).1 :=
  ⟨rfl, rfl, rfl, rfl⟩

/-- The parameters a step produces, independent of the report branch. -/
theorem trainStep_params {β : Type} (lr : ℚ) (lossOf : List ℚ → β → ℚ)
    (gradOf : List ℚ → β → List ℚ) (pe : ℕ) (s : TrainState) (b : β) :
    (trainStep lr lossOf gradOf pe s b).params =
      sgdStep lr s.params
        (backwardInto (zeroGrads s.params.length) (gradOf s.params b)) := by
  simp only [trainStep]
  split <;> rfl

/-- One scenario epoch on parameters [w, b]: both move by (1/10) * (w + b). -/
theorem scenario_epoch_params (s : TrainState) (w b : ℚ)
    (h : s.params = [w, b]) :
    (runEpoch (1 / 10) scenarioLossOf scenarioGradOf 40 s
        [((1 : ℚ), (0 : ℚ))]).params =
      [w - (1 / 10) * (w * 1 + b - 0), b - (1 / 10) * (w * 1 + b - 0)] := by
  simp only [runEpoch, List.foldl]
  rw [trainStep_params]
  simp [h, scenarioGradOf, gradW, gradB, linearForward, zeroGrads,
    backwardInto, sgdStep]

/-- One driver epoch appended to k scenario epochs. -/
theorem scenarioState_succ (k : ℕ) :
    scenarioState (k + 1) =
      runEpoch (1 / 10) scenarioLossOf scenarioGradOf 40 (scenarioState k)
        [((1 : ℚ), (0 : ℚ))] := by
  simp only [scenarioState, runDriver, List.range_succ, List.foldl_append,
    List.foldl]

/-- Closed form of the scenario parameters: after k steps,
w = 1 + (4/5)^k and b = (4/5)^k - 1. -/
theorem scenarioState_params :
    ∀ k : ℕ, (scenarioState k).params =
      [1 + (4 / 5 : ℚ) ^ k, (4 / 5 : ℚ) ^ k - 1]
  | 0 => by
      simp only [scenarioState, runDriver, List.range_zero, List.foldl,
        initState]
      norm_num
  | (k + 1) => by
      rw [scenarioState_succ,
        scenario_epoch_params (scenarioState k) (1 + (4 / 5 : ℚ) ^ k)
          ((4 / 5 : ℚ) ^ k - 1) (scenarioState_params k)]
      rw [pow_succ]
      simp only [List.cons.injEq, and_true]
      constructor <;> ring

/-- Closed form of the per-step scenario loss. -/
theorem lossAt_closed (k : ℕ) :
    lossAt k = 2 * ((4 / 5 : ℚ) ^ k) ^ 2 := by
  rw [lossAt, scenarioState_params k]
  simp only [scenarioLossOf, singleLoss, mseLoss, linearForward,
    List.zipWith, List.sum_cons, List.sum_nil, List.length_cons,
    List.length_nil]
  push_cast
  ring

/-- The scenario loss never reaches zero. -/
theorem lossAt_pos (k : ℕ) : 0 < lossAt k := by
  rw [lossAt_closed]
  positivity

/-- Each step strictly shrinks the scenario loss. -/
theorem lossAt_succ_lt (k : ℕ) : lossAt (k + 1) < lossAt k := by
  have h2 := lossAt_closed (k + 1)
  have hs : (4 / 5 : ℚ) ^ (k + 1) = (4 / 5 : ℚ) ^ k * (4 / 5) :=
    pow_succ _ _
  rw [hs] at h2
  rw [lossAt_closed k, h2]
  have ha : (0 : ℚ) < (4 / 5 : ℚ) ^ k := pow_pos (by norm_num) k
  nlinarith [ha, mul_pos ha ha]

/-- C9: over the 50-step scenario run (w = 2, b = 0, lr = 1/10, batch x = 1,
y = 0, notebook mean squared loss), the per-step loss values are strictly
decreasing. -/
theorem scenario_loss_strict_decrease (i j : ℕ) (hij : i < j) (hj : j < 50) :
    lossAt j < lossAt i :=
  strictAnti_nat_of_succ_lt lossAt_succ_lt hij

/-- Witness for C9: the loss of step 1 is below the loss of step 0. -/
theorem scenario_loss_strict_decrease_witness : lossAt 1 < lossAt 0 :=
  scenario_loss_strict_decrease 0 1 (by decide) (by decide)

end TrainingLoop
